import Mathlib

/-!
Shallow embedding of the provider-aggregation core of `llm-usage` (Go),
together with theorems checking the natural-language specification
against the code.

Conventions of the embedding:
* Go `float64` fields are modelled as `ℚ` (the adapters only perform
  exact arithmetic: division, subtraction, multiplication by 100).
* Go `int64` fields and timestamps are modelled as `ℤ`
  (epoch milliseconds for credential expiry / window reset times,
  an abstract monotone instant for cache expiry checks).
* `time.Now()` is passed explicitly as a `now : ℤ` parameter.
* Fallible calls are `Except String _` / `Option _`; Go `nil` pointers
  and `nil` maps/slices are `Option _`.
* Go `map[string]T` is modelled as an association list whose order
  stands for the (unspecified) map iteration order.
-/

namespace LLMUsage

/-! ## Package `provider` (the shared data model)

Source: `internal/provider` — `Usage`, `UsageWindow`, `UsageStats`,
`NewUsageError`. -/

/-- Values stored in `Usage.Extra` (Go `map[string]any`).  The fetch core
only ever inserts the account name (a string); everything else an adapter
may put there is opaque structured data. -/
inductive ExtraVal where
  | str (s : String)
  | obj (fields : List (String × String))
deriving DecidableEq, Repr

/-- `provider.UsageWindow`: one quota/rate-limit bucket.
`resetsAt` is the parsed reset instant (epoch milliseconds); `none`
models the Go `nil` pointer. -/
structure UsageWindow where
  label : String
  utilization : ℚ
  resetsAt : Option ℤ
  limit : Option ℚ
  used : Option ℚ
  remaining : Option ℚ
deriving DecidableEq, Repr

/-- `provider.Usage`: normalized per-provider-account result.
`extra = none` models the Go `nil` map; `error = none` a `nil` error
(`some msg` carries the error's message string). -/
structure Usage where
  provider : String
  windows : List UsageWindow
  extra : Option (List (String × ExtraVal))
  error : Option String
deriving DecidableEq, Repr

/-- `provider.UsageStats`: aggregate of one fetch operation. -/
structure UsageStats where
  providers : List Usage
deriving DecidableEq, Repr

/-- `provider.NewUsageError`: an `Usage` carrying only the provider id and
an error wrapping the display name (`fmt.Errorf("%s: %w", name, err)`).
`Windows` and `Extra` are left at their zero values (`nil`). -/
def NewUsageError (providerID providerName : String) (err : String) : Usage :=
  { provider := providerID
    windows := []
    extra := none
    error := some (providerName ++ ": " ++ err) }

/-- Go map assignment `m[k] = v`: replace the binding for `k` if present,
otherwise add one. -/
def mapSet (m : List (String × ExtraVal)) (k : String) (v : ExtraVal) :
    List (String × ExtraVal) :=
  match m with
  | [] => [(k, v)]
  | (k', v') :: rest => if k' = k then (k, v) :: rest else (k', v') :: mapSet rest k v

/-! ## The fetch core (`usage.FetchAllUsage` and its two copies)

For the fetch-level claims each resolved instance is embedded with its
`GetUsage()` call as a pure, per-instance result (`Except`): the goroutine
body is deterministic in that result, every pre-sized slot is written
exactly once, and the join (`wg.Wait`) makes the observable outcome the
slot sequence in resolution order, then filtered. -/

instance {ε α : Type} [DecidableEq ε] [DecidableEq α] : DecidableEq (Except ε α) := fun a b =>
  match a, b with
  | .error x, .error y =>
      if h : x = y then .isTrue (by rw [h]) else .isFalse (by simp [h])
  | .error _, .ok _ => .isFalse (by simp)
  | .ok _, .error _ => .isFalse (by simp)
  | .ok x, .ok y =>
      if h : x = y then .isTrue (by rw [h]) else .isFalse (by simp [h])

/-- `usage.ProviderInstance` with the embedded `provider.Provider`
flattened to its three-method contract: `ID()`, `Name()`, and `GetUsage()`
as a pure result. -/
structure ProviderInstance where
  id : String
  name : String
  accountName : String
  getUsage : Except String Usage
deriving DecidableEq, Repr

/-- Body of one fetch goroutine in `usage.FetchAllUsage` (the value
written into slot `idx` for instance `prov`): on error the slot gets
`NewUsageError(prov.ID(), prov.Name(), err)`; on success, if
`prov.AccountName != ""` the account name is written into
`usage.Extra["account"]` (allocating the map when `nil`) before the slot
write. -/
def fetchSlot (prov : ProviderInstance) : Usage :=
  match prov.getUsage with
  | .error err => NewUsageError prov.id prov.name err
  | .ok usage =>
      if prov.accountName ≠ "" then
        { usage with extra := some (mapSet (usage.extra.getD []) "account" (.str prov.accountName)) }
      else usage

/-- `usage.FetchAllUsage` (internal/usage/providers.go): one slot per
instance, written once by its owning task, then slots whose `Provider`
field is empty are filtered out. -/
def FetchAllUsage (providers : List ProviderInstance) : UsageStats :=
  let slots := providers.map fetchSlot
  { providers := slots.filter (fun p => p.provider ≠ "") }

namespace Serve

/-- The serve package's private copy `fetchAllUsage` (internal/serve),
textually the same algorithm as `usage.FetchAllUsage`. -/
def fetchAllUsage (providers : List ProviderInstance) : UsageStats :=
  let slots := providers.map (fun prov =>
    match prov.getUsage with
    | .error err => NewUsageError prov.id prov.name err
    | .ok usage =>
        if prov.accountName ≠ "" then
          { usage with extra := some (mapSet (usage.extra.getD []) "account" (.str prov.accountName)) }
        else usage)
  { providers := slots.filter (fun p => p.provider ≠ "") }

end Serve

namespace Main

/-- The main package's private copy `fetchAllUsage`, textually the same
algorithm as `usage.FetchAllUsage`. -/
def fetchAllUsage (providers : List ProviderInstance) : UsageStats :=
  let slots := providers.map (fun prov =>
    match prov.getUsage with
    | .error err => NewUsageError prov.id prov.name err
    | .ok usage =>
        if prov.accountName ≠ "" then
          { usage with extra := some (mapSet (usage.extra.getD []) "account" (.str prov.accountName)) }
        else usage)
  { providers := slots.filter (fun p => p.provider ≠ "") }

end Main

/-- A resolved instance is well-formed: its adapter's `ID()` is one of the
non-empty provider-id constants, and a successful `GetUsage()` result
carries the adapter's non-empty `Provider` field (every adapter sets it
to a literal such as "kimi"). -/
def WFInstance (p : ProviderInstance) : Prop :=
  p.id ≠ "" ∧ ∀ u, p.getUsage = .ok u → u.provider ≠ ""

instance (p : ProviderInstance) : Decidable (WFInstance p) :=
  decidable_of_iff
    (p.id ≠ "" ∧ ∀ u ∈ p.getUsage.toOption, u.provider ≠ "") <| by
  unfold WFInstance
  cases h : p.getUsage <;> simp [Except.toOption]

/-! ## Package `credentials` (credential documents)

Source: `internal/credentials` — `OAuthCredentials`, `ClaudeCredentials`,
`KimiCredentials` and their `GetAccount` / `ListAccounts` methods. -/

/-- `credentials.OAuthCredentials` (legacy Claude CLI shape);
`expiresAt` is epoch milliseconds. -/
structure OAuthCredentials where
  accessToken : String
  refreshToken : String
  expiresAt : ℤ
  scopes : List String
deriving DecidableEq, Repr

/-- `credentials.ClaudeAccount`: one account's credentials in the
multi-account shape. -/
structure ClaudeAccount where
  accessToken : String
  refreshToken : String
  expiresAt : ℤ
  scopes : List String
deriving DecidableEq, Repr

/-- `ClaudeAccount.ToOAuthCredentials`. -/
def ClaudeAccount.ToOAuthCredentials (a : ClaudeAccount) : OAuthCredentials :=
  { accessToken := a.accessToken
    refreshToken := a.refreshToken
    expiresAt := a.expiresAt
    scopes := a.scopes }

/-- `credentials.ClaudeCredentials`: legacy field plus multi-account
mapping; `accounts = none` is the Go `nil` map, the list order stands for
the map's iteration order. -/
structure ClaudeCredentials where
  claudeAiOauth : Option OAuthCredentials
  accounts : Option (List (String × ClaudeAccount))
deriving DecidableEq, Repr

/-- `ClaudeCredentials.GetAccount`: in the multi-account mapping, an empty
name selects "default" and otherwise the first iterated account; a
non-empty name selects the exact match; every unresolved path falls
through to `return c.ClaudeAiOauth`. -/
def ClaudeCredentials.GetAccount (c : ClaudeCredentials) (accountName : String) :
    Option OAuthCredentials :=
  match c.accounts with
  | some accs =>
      if accountName = "" then
        match accs.lookup "default" with
        | some acc => some acc.ToOAuthCredentials
        | none =>
            match accs with
            | (_, acc) :: _ => some acc.ToOAuthCredentials
            | [] => c.claudeAiOauth
      else
        match accs.lookup accountName with
        | some acc => some acc.ToOAuthCredentials
        | none => c.claudeAiOauth
  | none => c.claudeAiOauth

/-- `ClaudeCredentials.ListAccounts`. -/
def ClaudeCredentials.ListAccounts (c : ClaudeCredentials) : List String :=
  match c.accounts with
  | some accs => accs.map Prod.fst
  | none => if c.claudeAiOauth.isSome then ["default"] else []

/-- `credentials.KimiAccount`. -/
structure KimiAccount where
  apiKey : String
deriving DecidableEq, Repr

/-- `credentials.KimiCredentials`: legacy flat `apiKey` plus multi-account
mapping (`accounts = none` is the Go `nil` map). -/
structure KimiCredentials where
  apiKey : String
  accounts : Option (List (String × KimiAccount))
deriving DecidableEq, Repr

/-- `KimiCredentials.GetAccount`: same shape as the Claude method; the
legacy fallback returns `&KimiAccount{APIKey: k.APIKey}` when the flat key
is non-empty, else `nil`. -/
def KimiCredentials.GetAccount (k : KimiCredentials) (accountName : String) :
    Option KimiAccount :=
  match k.accounts with
  | some accs =>
      if accountName = "" then
        match accs.lookup "default" with
        | some acc => some acc
        | none =>
            match accs with
            | (_, acc) :: _ => some acc
            | [] => if k.apiKey ≠ "" then some ⟨k.apiKey⟩ else none
      else
        match accs.lookup accountName with
        | some acc => some acc
        | none => if k.apiKey ≠ "" then some ⟨k.apiKey⟩ else none
  | none => if k.apiKey ≠ "" then some ⟨k.apiKey⟩ else none

/-- `KimiCredentials.ListAccounts`. -/
def KimiCredentials.ListAccounts (k : KimiCredentials) : List String :=
  match k.accounts with
  | some accs => accs.map Prod.fst
  | none => if k.apiKey ≠ "" then ["default"] else []

/-! ## Claude resolution (`usage.getClaudeProviders`)

Source: `internal/usage/providers.go`.  The keychain load
(`LoadClaudeFromKeychain`) and the store load (`credsMgr.LoadClaude`) are
passed in as their results (`none` = the load returned an error). -/

namespace claude

/-- Modelled from the spec: the `internal/provider/claude` package is not
among the sources (only its callers are).  Its `IsExpired(expiresAt)`
helper — "entries with expired tokens are silently excluded" — is
modelled after the identical `OAuthCredentials.IsExpired` in
`internal/credentials`: `time.Now().After(time.UnixMilli(expiresAt))`,
i.e. `now` strictly past the expiry instant (milliseconds). -/
def IsExpired (now expiresAt : ℤ) : Bool :=
  expiresAt < now

end claude

/-- A Claude provider instance as built by resolution:
`claude.NewProvider(accessToken)` plus the chosen account name. -/
structure ClaudeProviderInstance where
  accessToken : String
  accountName : String
deriving DecidableEq, Repr

/-- `usage.getClaudeProviders`: dual-source resolution for the Claude
provider.  `keychain` is the `LoadClaudeFromKeychain` result, `multi` the
`credsMgr.LoadClaude` result (`none` = error). -/
def getClaudeProviders (now : ℤ) (accountFlag : String)
    (keychain : Option OAuthCredentials) (multi : Option ClaudeCredentials) :
    List ClaudeProviderInstance :=
  if keychain.isNone && multi.isNone then []
  else if accountFlag ≠ "" then
    match multi with
    | none => []
    | some mc =>
        match mc.GetAccount accountFlag with
        | none => []
        | some oauth =>
            if claude.IsExpired now oauth.expiresAt then []
            else [⟨oauth.accessToken, accountFlag⟩]
  else
    (match keychain with
     | some kc =>
         if !claude.IsExpired now kc.expiresAt then [⟨kc.accessToken, "default"⟩] else []
     | none => []) ++
    (match multi with
     | none => []
     | some mc =>
         mc.ListAccounts.filterMap (fun accName =>
           if keychain.isSome && accName = "default" then none
           else
             match mc.GetAccount accName with
             | none => none
             | some oauth =>
                 if claude.IsExpired now oauth.expiresAt then none
                 else some ⟨oauth.accessToken, accName⟩))

/-! ## Package `provider/kimi` (scoped usage + rate limits)

Source: `internal/provider/kimi` — `parseScopeWindow`, `parseLimitWindow`
and the label helpers.  The vendor transmits `limit`/`used` as decimal
strings; the `strconv.ParseFloat` outcome is embedded as `Option ℚ`
(`none` = parse failure), and likewise the `time.Parse` outcome of
`resetTime` as `Option ℤ` (`none` = empty or unparseable). -/

namespace kimi

/-- `kimi.UsageDetail` with its string fields carried as parse results. -/
structure UsageDetail where
  limit : Option ℚ
  used : Option ℚ
  resetTime : Option ℤ
deriving DecidableEq, Repr

/-- `kimi.WindowDetail`. -/
structure WindowDetail where
  duration : ℤ
  timeUnit : String
deriving DecidableEq, Repr

/-- `kimi.LimitItem`. -/
structure LimitItem where
  window : WindowDetail
  detail : UsageDetail
deriving DecidableEq, Repr

/-- `kimi.UsageItem`. -/
structure UsageItem where
  scope : String
  detail : UsageDetail
  limits : List LimitItem
deriving DecidableEq, Repr

/-- Go's `strings.ToUpper(part[:1]) + strings.ToLower(part[1:])` on a
non-empty part (ASCII identifiers in practice). -/
def capitalizeWord (s : String) : String :=
  match s.toList with
  | [] => ""
  | c :: rest => String.mk (c.toUpper :: rest.map Char.toLower)

/-- `formatScopeLabel`: `FEATURE_CODING` → "Feature Coding". -/
def formatScopeLabel (scope : String) : String :=
  String.intercalate " " ((scope.splitOn "_").map capitalizeWord)

/-- `strings.TrimPrefix`. -/
def trimPrefixStr (s p : String) : String :=
  if s.startsWith p then s.drop p.length else s

/-- `strings.TrimSuffix`. -/
def trimSuffixStr (s p : String) : String :=
  if s.endsWith p then s.dropRight p.length else s

/-- `formatDurationLabel`: `(5, TIME_UNIT_MINUTE)` → "5-Minute Rate Limit". -/
def formatDurationLabel (duration : ℤ) (timeUnit : String) : String :=
  let unit := trimSuffixStr (trimPrefixStr timeUnit "TIME_UNIT_").toLower "s"
  let unit := capitalizeWordKeepTail unit
  toString duration ++ "-" ++ unit ++ " Rate Limit"
where
  /-- Go capitalizes only the first byte here (`ToUpper(unit[:1]) + unit[1:]`),
  leaving the tail unchanged. -/
  capitalizeWordKeepTail (s : String) : String :=
    match s.toList with
    | [] => ""
    | c :: rest => String.mk (c.toUpper :: rest)

/-- `kimi.parseScopeWindow`: skipped (`none`) when either decimal string
fails to parse; otherwise `utilization = used/limit*100` and
`remaining = limit - used`. -/
def parseScopeWindow (item : UsageItem) : Option UsageWindow :=
  match item.detail.limit with
  | none => none
  | some limit =>
      match item.detail.used with
      | none => none
      | some used =>
          some { label := formatScopeLabel item.scope
                 utilization := (used / limit) * 100
                 resetsAt := item.detail.resetTime
                 limit := some limit
                 used := some used
                 remaining := some (limit - used) }

/-- `kimi.parseLimitWindow`: same skip policy and formulas as the scope
window, labelled from the `(duration, timeUnit)` descriptor. -/
def parseLimitWindow (limit : LimitItem) : Option UsageWindow :=
  match limit.detail.limit with
  | none => none
  | some limitVal =>
      match limit.detail.used with
      | none => none
      | some usedVal =>
          some { label := formatDurationLabel limit.window.duration limit.window.timeUnit
                 utilization := (usedVal / limitVal) * 100
                 resetsAt := limit.detail.resetTime
                 limit := some limitVal
                 used := some usedVal
                 remaining := some (limitVal - usedVal) }

end kimi

/-! ## Package `provider/minimax` (cookie + group-id vendor)

Source: `internal/provider/minimax` — `ModelRemain`, `parseModelRemain`. -/

namespace minimax

/-- `minimax.ModelRemain`: integer fields of the vendor response
(`int64`), timestamps in epoch milliseconds. -/
structure ModelRemain where
  startTime : ℤ
  endTime : ℤ
  remainsTime : ℤ
  currentIntervalTotalCount : ℤ
  currentIntervalUsageCount : ℤ
  modelName : String
deriving DecidableEq, Repr

/-- `minimax.parseModelRemain`: never skips an entry;
`utilization = (total-used)/total*100` when `total > 0`, else 0
(remaining-based, the vendor's inverted convention);
`remaining` is `remains_time` (a duration), not `limit - used`. -/
def parseModelRemain (item : ModelRemain) : UsageWindow :=
  let total : ℚ := (item.currentIntervalTotalCount : ℚ)
  let used : ℚ := (item.currentIntervalUsageCount : ℚ)
  let remaining : ℚ := (item.remainsTime : ℚ)
  let utilization : ℚ := if 0 < total then ((total - used) / total) * 100 else 0
  let label := if item.modelName = "" then "MiniMax" else item.modelName
  { label := label
    utilization := utilization
    resetsAt := some item.endTime
    limit := some total
    used := some used
    remaining := some remaining }

end minimax

/-! ## Package `cache` (file-based TTL cache)

Source: `internal/cache` — `Entry`, `Manager.Get`, `Manager.Set`.  The
backing file for one key is modelled as an explicit state; `now` is the
`time.Now()` instant of the call.  An entry's `Data` field is carried as
`Option V`: `some v` when `json.Unmarshal(entry.Data, target)` succeeds
with value `v`, `none` when it fails. -/

namespace cache

/-- `cache.Entry` for a target type `V`. -/
structure Entry (V : Type) where
  data : Option V
  cachedAt : ℤ
  expiresAt : ℤ
deriving DecidableEq, Repr

/-- State of one key's backing file: absent, present but unreadable
(I/O error other than not-exist), present but not parseable as an
`Entry`, or a parsed entry. -/
inductive CacheFile (V : Type) where
  | missing
  | unreadable
  | corrupt
  | entry (e : Entry V)
deriving DecidableEq, Repr

/-- Result of `Manager.Get`: the returned `(found, err)` pair, the value
decoded into the target on a hit, and the state of the backing file after
the call (the expired branch removes it). -/
structure GetResult (V : Type) where
  found : Bool
  value : Option V
  err : Option String
  file : CacheFile V
deriving DecidableEq, Repr

/-- `cache.Manager.Get`: a missing file and an unparseable entry are
misses without error; a read error and a payload that fails to unmarshal
into the target return an error; an expired entry (`time.Now().After`,
strictly past `expiresAt`) is a miss that removes the file. -/
def Get {V : Type} (file : CacheFile V) (now : ℤ) : GetResult V :=
  match file with
  | .missing => ⟨false, none, none, .missing⟩
  | .unreadable => ⟨false, none, some "failed to read cache file", .unreadable⟩
  | .corrupt => ⟨false, none, none, .corrupt⟩
  | .entry e =>
      if e.expiresAt < now then ⟨false, none, none, .missing⟩
      else
        match e.data with
        | none => ⟨false, none, some "failed to unmarshal cached data", .entry e⟩
        | some v => ⟨true, some v, none, .entry e⟩

/-- `cache.Manager.Set`: overwrites the key's file wholesale with
`{data, cached_at: now, expires_at: now+ttl}`.  A JSON-serializable value
round-trips, so the stored payload decodes back to `v`; directory
creation and the file write are assumed to succeed. -/
def Set {V : Type} (v : V) (now ttl : ℤ) : CacheFile V :=
  .entry ⟨some v, now, now + ttl⟩

end cache

/-! ## Concrete inputs used to evaluate the definitions -/

namespace Examples

/-- A populated window, as a Claude-like adapter would produce. -/
def windowA : UsageWindow :=
  { label := "5-Hour", utilization := 42, resetsAt := none
    limit := none, used := none, remaining := none }

/-- A resolved instance under the implicit "default" account whose fetch
succeeds. -/
def claudeOk : ProviderInstance :=
  { id := "claude", name := "Claude", accountName := "default"
    getUsage := .ok { provider := "claude", windows := [windowA], extra := none, error := none } }

/-- A resolved instance whose fetch fails. -/
def kimiErr : ProviderInstance :=
  { id := "kimi", name := "Kimi", accountName := "work"
    getUsage := .error "request failed with status 500" }

/-- A resolved instance under a named account whose fetch succeeds. -/
def zaiOk : ProviderInstance :=
  { id := "zai", name := "Z.AI", accountName := "work"
    getUsage := .ok { provider := "zai", windows := [windowA], extra := none, error := none } }

/-- Three resolved instances of which exactly the second errors. -/
def threeInstances : List ProviderInstance :=
  [claudeOk, kimiErr, zaiOk]

/-- A legacy keychain credential whose token expired at instant 500. -/
def keychainExpired : OAuthCredentials :=
  { accessToken := "keychain-token", refreshToken := "r", expiresAt := 500, scopes := [] }

/-- A multi-account store holding one unexpired "default" account. -/
def multiDefaultFresh : ClaudeCredentials :=
  { claudeAiOauth := none
    accounts := some [("default",
      { accessToken := "store-token", refreshToken := "r", expiresAt := 2000, scopes := [] })] }

/-- A Kimi document holding only the legacy flat API key. -/
def kimiLegacyOnly : KimiCredentials :=
  { apiKey := "legacy-key", accounts := none }

/-- A Kimi usage item whose vendor-reported `used` exceeds `limit`. -/
def overLimitItem : kimi.UsageItem :=
  { scope := "FEATURE_CODING"
    detail := { limit := some 100, used := some 150, resetTime := none }
    limits := [] }

/-- The spec's worked example: `limit="100"`, `used="37"`. -/
def item37 : kimi.UsageItem :=
  { scope := "FEATURE_CODING"
    detail := { limit := some 100, used := some 37, resetTime := none }
    limits := [] }

/-- The window `item37` parses to. -/
def window37 : UsageWindow :=
  { label := "Feature Coding", utilization := 37, resetsAt := none
    limit := some 100, used := some 37, remaining := some 63 }

/-- The spec's worked MiniMax example: total 100, used 80, with a
`remains_time` duration of one hour in milliseconds. -/
def remain10080 : minimax.ModelRemain :=
  { startTime := 0, endTime := 1700000000000, remainsTime := 3600000
    currentIntervalTotalCount := 100, currentIntervalUsageCount := 80
    modelName := "MiniMax-M1" }

/-- The window `item37` actually parses to (projected out of the parse
result). -/
def scope37 : UsageWindow :=
  (kimi.parseScopeWindow item37).getD ⟨"", 0, none, none, none, none⟩

/-- A cache file whose entry parses but whose payload does not decode
into the caller's target. -/
def badPayload : cache.CacheFile ℤ :=
  .entry { data := none, cachedAt := 0, expiresAt := 100 }

end Examples

/-! ## Theorems -/

/-- Go map assignment leaves the assigned key bound to the assigned
value. -/
theorem mapSet_lookup (m : List (String × ExtraVal)) (k : String) (v : ExtraVal) :
    (mapSet m k v).lookup k = some v := by
  induction m with
  | nil => simp [mapSet, List.lookup]
  | cons hd tl ih =>
      obtain ⟨k', v'⟩ := hd
      by_cases h : k' = k
      · simp [mapSet, h, List.lookup]
      · have hne : (k == k') = false := by simp [Ne.symm h]
        simp [mapSet, h, List.lookup, ih, hne]

/-- For well-formed (resolved) instances every slot carries a non-empty
`Provider` field, so the defensive filter is the identity and the result
is exactly the per-instance slot sequence in resolution order. -/
theorem FetchAllUsage_providers_eq_map (l : List ProviderInstance)
    (hwf : ∀ p ∈ l, WFInstance p) :
    (FetchAllUsage l).providers = l.map fetchSlot := by
  unfold FetchAllUsage
  simp only [UsageStats.mk.injEq]
  apply List.filter_eq_self.mpr
  intro a ha
  obtain ⟨p, hp, rfl⟩ := List.mem_map.mp ha
  have h := hwf p hp
  unfold fetchSlot
  cases hg : p.getUsage with
  | error e => simpa [NewUsageError] using h.1
  | ok u =>
      have hu := h.2 u hg
      by_cases hacc : p.accountName = "" <;> simp [hacc, hu]

/-- C1: for every resolved instance list, `FetchAllUsage` returns exactly
one entry per instance, in resolution order; an instance whose
`GetUsage()` errors yields an entry with `error` set (wrapping the
adapter's display name and the underlying message) and empty `windows`,
while every instance whose `GetUsage()` succeeds contributes its
populated entry (same `windows`, same `error`, same `provider`). -/
theorem fetchAllUsage_one_entry_per_instance (l : List ProviderInstance)
    (hwf : ∀ p ∈ l, WFInstance p) :
    (FetchAllUsage l).providers.length = l.length ∧
    ∀ (i : ℕ) (p : ProviderInstance), l[i]? = some p →
      (∀ msg, p.getUsage = .error msg →
        (FetchAllUsage l).providers[i]? =
          some ({ provider := p.id, windows := [], extra := none
                  error := some (p.name ++ ": " ++ msg) } : Usage)) ∧
      (∀ u, p.getUsage = .ok u →
        (FetchAllUsage l).providers[i]? = some (fetchSlot p) ∧
        (fetchSlot p).provider = u.provider ∧
        (fetchSlot p).windows = u.windows ∧
        (fetchSlot p).error = u.error) := by
  have hmap := FetchAllUsage_providers_eq_map l hwf
  constructor
  · rw [hmap]; simp
  · intro i p hp
    constructor
    · intro msg hmsg
      rw [hmap, List.getElem?_map, hp]
      simp [fetchSlot, hmsg, NewUsageError]
    · intro u hu
      refine ⟨by rw [hmap, List.getElem?_map, hp]; rfl, ?_, ?_, ?_⟩ <;>
        (unfold fetchSlot; rw [hu]; by_cases hacc : p.accountName = "" <;> simp [hacc])

/-- C1 witness: three resolved instances of which exactly the second
errors give exactly three entries: the second with `error` set and empty
`windows`, the first and third with their populated windows and no
error. -/
theorem fetchAllUsage_one_entry_per_instance_witness :
    (∀ p ∈ Examples.threeInstances, WFInstance p) ∧
    (FetchAllUsage Examples.threeInstances).providers.length = 3 ∧
    (FetchAllUsage Examples.threeInstances).providers[1]? =
      some ({ provider := "kimi", windows := [], extra := none
              error := some ("Kimi" ++ ": " ++ "request failed with status 500") } : Usage) ∧
    (FetchAllUsage Examples.threeInstances).providers[0]? = some (fetchSlot Examples.claudeOk) ∧
    (fetchSlot Examples.claudeOk).windows = [Examples.windowA] ∧
    (fetchSlot Examples.claudeOk).error = none ∧
    (FetchAllUsage Examples.threeInstances).providers[2]? = some (fetchSlot Examples.zaiOk) ∧
    (fetchSlot Examples.zaiOk).windows = [Examples.windowA] ∧
    (fetchSlot Examples.zaiOk).error = none := by
  have h := fetchAllUsage_one_entry_per_instance Examples.threeInstances (by decide)
  refine ⟨by decide, h.1, ?_, ?_, ?_, ?_, ?_, ?_, ?_⟩
  · exact (h.2 1 Examples.kimiErr rfl).1 "request failed with status 500" rfl
  · exact ((h.2 0 Examples.claudeOk rfl).2
      { provider := "claude", windows := [Examples.windowA], extra := none, error := none } rfl).1
  · exact ((h.2 0 Examples.claudeOk rfl).2
      { provider := "claude", windows := [Examples.windowA], extra := none, error := none } rfl).2.2.1
  · exact ((h.2 0 Examples.claudeOk rfl).2
      { provider := "claude", windows := [Examples.windowA], extra := none, error := none } rfl).2.2.2
  · exact ((h.2 2 Examples.zaiOk rfl).2
      { provider := "zai", windows := [Examples.windowA], extra := none, error := none } rfl).1
  · exact ((h.2 2 Examples.zaiOk rfl).2
      { provider := "zai", windows := [Examples.windowA], extra := none, error := none } rfl).2.2.1
  · exact ((h.2 2 Examples.zaiOk rfl).2
      { provider := "zai", windows := [Examples.windowA], extra := none, error := none } rfl).2.2.2

/-- C2 counterexample: a successfully fetching instance under the
implicit "default" account name does get `extra["account"] = "default"`
injected — the code's guard is `AccountName != ""`, not non-default, so
the claim's "no `extra[\x22account\x22]` entry for default" is false. -/
theorem fetchAllUsage_injects_account_for_default_cex :
    (FetchAllUsage [Examples.claudeOk]).providers =
      [{ provider := "claude", windows := [Examples.windowA]
         extra := some [("account", ExtraVal.str "default")], error := none }] :=
  rfl

/-- C2 (amended): on success the account name is injected into the
result's `extra["account"]` key if and only if the instance's account
name is non-empty; an instance carrying the implicit "default" account
name has a non-empty name and therefore gets `extra["account"]`
injected as well. -/
theorem fetchSlot_account_injection_iff_nonempty (p : ProviderInstance) (u : Usage)
    (h : p.getUsage = .ok u) :
    (p.accountName ≠ "" →
      fetchSlot p =
        { u with extra := some (mapSet (u.extra.getD []) "account" (.str p.accountName)) } ∧
      ((fetchSlot p).extra.getD []).lookup "account" = some (.str p.accountName)) ∧
    (p.accountName = "" → fetchSlot p = u) := by
  refine ⟨fun hacc => ⟨?_, ?_⟩, fun hacc => ?_⟩
  · unfold fetchSlot; rw [h]; simp [hacc]
  · unfold fetchSlot; rw [h]; simp [hacc, mapSet_lookup]
  · unfold fetchSlot; rw [h]; simp [hacc]

/-- C2 witness: the "default"-named instance gets
`extra["account"] = "default"`. -/
theorem fetchSlot_account_injection_iff_nonempty_witness :
    Examples.claudeOk.accountName ≠ "" ∧
    ((fetchSlot Examples.claudeOk).extra.getD []).lookup "account" =
      some (ExtraVal.str Examples.claudeOk.accountName) := by
  have h := fetchSlot_account_injection_iff_nonempty Examples.claudeOk
    { provider := "claude", windows := [Examples.windowA], extra := none, error := none } rfl
  exact ⟨by decide, (h.1 (by decide)).2⟩

/-- C3 (code bug): with an empty account filter, a keychain credential
that is present but expired (expiresAt 500, now 1000) and a multi-account
store holding an unexpired "default" account, resolution returns no
instances — the store's "default" is skipped because the keychain merely
loaded (`keychainErr == nil`), its expiry unchecked, contradicting the
code's own comment "Skip if this was already added from keychain" and the
spec's "already contributed by the legacy source".  Without the keychain
the very same store account is included. -/
theorem getClaudeProviders_expired_keychain_suppresses_store_default :
    getClaudeProviders 1000 "" (some Examples.keychainExpired)
      (some Examples.multiDefaultFresh) = [] ∧
    getClaudeProviders 1000 "" none (some Examples.multiDefaultFresh) =
      [⟨"store-token", "default"⟩] :=
  ⟨rfl, rfl⟩

/-- C4 counterexample: a Kimi document holding only the legacy flat API
key: `GetAccount "work"` (a non-empty name with no matching account)
falls back to the legacy credential instead of returning `none`. -/
theorem GetAccount_named_legacy_fallback_cex :
    Examples.kimiLegacyOnly.GetAccount "work" = some ⟨"legacy-key"⟩ ∧
    Examples.kimiLegacyOnly.GetAccount "work" ≠ none :=
  ⟨rfl, by decide⟩

/-- C4 (amended): for a non-empty account name, `GetAccount` returns the
exact match from the accounts mapping when present, and otherwise falls
back to the legacy flat credential (Kimi: the flat `apiKey` when
non-empty; Claude: `claudeAiOauth`), returning `none` only when that is
also absent. -/
theorem GetAccount_named_exact_match_or_legacy (k : KimiCredentials) (c : ClaudeCredentials)
    (name : String) (h : name ≠ "") :
    k.GetAccount name =
      (match (k.accounts.getD []).lookup name with
       | some acc => some acc
       | none => if k.apiKey ≠ "" then some ⟨k.apiKey⟩ else none) ∧
    c.GetAccount name =
      (match (c.accounts.getD []).lookup name with
       | some acc => some acc.ToOAuthCredentials
       | none => c.claudeAiOauth) := by
  constructor
  · unfold KimiCredentials.GetAccount
    cases k.accounts with
    | none => simp [List.lookup]
    | some accs => simp [h]
  · unfold ClaudeCredentials.GetAccount
    cases c.accounts with
    | none => simp [List.lookup]
    | some accs => simp [h]

/-- C4 witness: the legacy-only Kimi document falls back for "work";
the accounts-only Claude document (no legacy field) yields `none`. -/
theorem GetAccount_named_exact_match_or_legacy_witness :
    ("work" : String) ≠ "" ∧
    Examples.kimiLegacyOnly.GetAccount "work" = some ⟨"legacy-key"⟩ ∧
    Examples.multiDefaultFresh.GetAccount "work" = none := by
  have h := GetAccount_named_exact_match_or_legacy Examples.kimiLegacyOnly
    Examples.multiDefaultFresh "work" (by decide)
  exact ⟨by decide, h.1, h.2⟩

/-- C5 counterexample: the Kimi adapter accepts a response with
`limit="100"`, `used="150"` (both parse) and produces a window with
utilization 150, outside [0,100]. -/
theorem kimi_utilization_exceeds_100_cex :
    (kimi.parseScopeWindow Examples.overLimitItem).map UsageWindow.utilization = some 150 ∧
    ¬ (150 : ℚ) ≤ 100 := by
  constructor
  · simp [kimi.parseScopeWindow, Examples.overLimitItem, kimi.formatScopeLabel]
  · norm_num

/-- C5 (amended): utilization stays in [0,100] for every window the
adapters derive from in-range vendor data — Kimi scope and rate-limit
windows with `0 < limit` and `0 ≤ used ≤ limit`, and MiniMax entries with
`0 ≤ usage_count ≤ total_count`; outside those ranges the unclamped
formulas escape the interval (see the counterexample). -/
theorem adapter_utilization_in_range_of_used_le_limit :
    (∀ (item : kimi.UsageItem) (l u : ℚ) (w : UsageWindow),
        item.detail.limit = some l → item.detail.used = some u →
        0 < l → 0 ≤ u → u ≤ l → kimi.parseScopeWindow item = some w →
        0 ≤ w.utilization ∧ w.utilization ≤ 100) ∧
    (∀ (li : kimi.LimitItem) (l u : ℚ) (w : UsageWindow),
        li.detail.limit = some l → li.detail.used = some u →
        0 < l → 0 ≤ u → u ≤ l → kimi.parseLimitWindow li = some w →
        0 ≤ w.utilization ∧ w.utilization ≤ 100) ∧
    (∀ item : minimax.ModelRemain,
        0 ≤ item.currentIntervalUsageCount →
        item.currentIntervalUsageCount ≤ item.currentIntervalTotalCount →
        0 ≤ (minimax.parseModelRemain item).utilization ∧
        (minimax.parseModelRemain item).utilization ≤ 100) := by
  refine ⟨?_, ?_, ?_⟩
  · intro item l u w hl hu h0 hu0 hul hw
    unfold kimi.parseScopeWindow at hw
    rw [hl, hu] at hw
    obtain rfl : _ = w := Option.some_injective _ hw
    have hd1 : u / l ≤ 1 := (div_le_one h0).mpr hul
    have hd0 : 0 ≤ u / l := div_nonneg hu0 h0.le
    constructor <;> nlinarith
  · intro li l u w hl hu h0 hu0 hul hw
    unfold kimi.parseLimitWindow at hw
    rw [hl, hu] at hw
    obtain rfl : _ = w := Option.some_injective _ hw
    have hd1 : u / l ≤ 1 := (div_le_one h0).mpr hul
    have hd0 : 0 ≤ u / l := div_nonneg hu0 h0.le
    constructor <;> nlinarith
  · intro item h0 hle
    have h0' : (0:ℚ) ≤ (item.currentIntervalUsageCount : ℚ) := by exact_mod_cast h0
    have hle' : (item.currentIntervalUsageCount : ℚ) ≤ (item.currentIntervalTotalCount : ℚ) := by
      exact_mod_cast hle
    by_cases hT : (0:ℚ) < (item.currentIntervalTotalCount : ℚ)
    · have hd1 : ((item.currentIntervalTotalCount : ℚ) - (item.currentIntervalUsageCount : ℚ)) /
          (item.currentIntervalTotalCount : ℚ) ≤ 1 := by
        rw [div_le_one hT]; linarith
      have hd0 : 0 ≤ ((item.currentIntervalTotalCount : ℚ) - (item.currentIntervalUsageCount : ℚ)) /
          (item.currentIntervalTotalCount : ℚ) := div_nonneg (by linarith) hT.le
      simp [minimax.parseModelRemain, hT]
      constructor <;> nlinarith
    · simp [minimax.parseModelRemain, hT]

/-- C5 witness: the spec's worked examples (`limit=100, used=37` for Kimi
and `total=100, used=80` for MiniMax) stay inside [0,100]. -/
theorem adapter_utilization_in_range_of_used_le_limit_witness :
    ((0:ℚ) < 100 ∧ (0:ℚ) ≤ 37 ∧ (37:ℚ) ≤ 100) ∧
    (0 ≤ Examples.scope37.utilization ∧ Examples.scope37.utilization ≤ 100) ∧
    (0 ≤ (minimax.parseModelRemain Examples.remain10080).utilization ∧
      (minimax.parseModelRemain Examples.remain10080).utilization ≤ 100) := by
  have h := adapter_utilization_in_range_of_used_le_limit
  refine ⟨⟨by decide, by decide, by decide⟩, ?_, ?_⟩
  · exact h.1 Examples.item37 100 37 Examples.scope37 rfl rfl
      (by decide) (by decide) (by decide) rfl
  · exact h.2.2 Examples.remain10080 (by decide) (by decide)

/-- C6 counterexample: an unexpired stored entry whose payload fails to
unmarshal into the caller's target makes `Get` return `found=false`
together with an error — not the claimed silent miss. -/
theorem cache_get_payload_mismatch_errors_cex :
    (cache.Get Examples.badPayload 50).found = false ∧
    (cache.Get Examples.badPayload 50).err ≠ none :=
  ⟨rfl, by decide⟩

/-- C6 (amended): `Get` returns `found=false` with no error for a missing
entry, for an entry file that fails to parse as a cache entry, and for an
expired entry (strictly past `expires_at`) — removing the backing file in
the expired case; but an unexpired entry whose stored payload fails to
unmarshal into the target returns `found=false` together with an
error. -/
theorem cache_get_miss_policy {V : Type} (file : cache.CacheFile V) (now : ℤ) :
    (file = .missing → cache.Get file now = ⟨false, none, none, .missing⟩) ∧
    (file = .corrupt → cache.Get file now = ⟨false, none, none, .corrupt⟩) ∧
    (∀ e : cache.Entry V, file = .entry e → e.expiresAt < now →
        cache.Get file now = ⟨false, none, none, .missing⟩) ∧
    (∀ e : cache.Entry V, file = .entry e → ¬ e.expiresAt < now → e.data = none →
        (cache.Get file now).found = false ∧ (cache.Get file now).err ≠ none) := by
  refine ⟨?_, ?_, ?_, ?_⟩
  · rintro rfl; rfl
  · rintro rfl; rfl
  · rintro e rfl h; simp [cache.Get, h]
  · rintro e rfl h hd; simp [cache.Get, h, hd]

/-- C6 witness: a missing file at instant 0, an entry expired at 100 read
at 200 (removed), and the unexpired-but-undecodable entry read at 50. -/
theorem cache_get_miss_policy_witness :
    cache.Get (cache.CacheFile.missing : cache.CacheFile ℤ) 0 = ⟨false, none, none, .missing⟩ ∧
    cache.Get (cache.CacheFile.entry (⟨none, 0, 100⟩ : cache.Entry ℤ)) 200 =
      ⟨false, none, none, .missing⟩ ∧
    (cache.Get Examples.badPayload 50).found = false ∧
    (cache.Get Examples.badPayload 50).err ≠ none := by
  refine ⟨(cache_get_miss_policy .missing 0).1 rfl,
    (cache_get_miss_policy (.entry ⟨none, 0, 100⟩) 200).2.2.1 ⟨none, 0, 100⟩ rfl (by decide),
    ((cache_get_miss_policy Examples.badPayload 50).2.2.2 ⟨none, 0, 100⟩ rfl (by decide) rfl).1,
    ((cache_get_miss_policy Examples.badPayload 50).2.2.2 ⟨none, 0, 100⟩ rfl (by decide) rfl).2⟩

/-- C7: a `Set(key, v, ttl)` with positive ttl followed immediately by
`Get(key)` is a hit returning the stored value; a `Get` strictly more
than ttl after the set is a miss and removes the entry from storage. -/
theorem cache_set_get_roundtrip_and_expiry {V : Type} (v : V) (now ttl t2 : ℤ)
    (h1 : 0 < ttl) (h2 : now + ttl < t2) :
    cache.Get (cache.Set v now ttl) now =
      ⟨true, some v, none, .entry ⟨some v, now, now + ttl⟩⟩ ∧
    cache.Get (cache.Set v now ttl) t2 = ⟨false, none, none, .missing⟩ := by
  constructor
  · have h : ¬ (now + ttl < now) := by linarith
    simp [cache.Get, cache.Set, h]
  · simp [cache.Get, cache.Set, h2]

/-- C7 witness: value 7 stored at instant 100 with ttl 60: an immediate
get hits, a get at 161 misses and removes the file. -/
theorem cache_set_get_roundtrip_and_expiry_witness :
    (0:ℤ) < 60 ∧ (100:ℤ) + 60 < 161 ∧
    cache.Get (cache.Set (7:ℤ) 100 60) 100 =
      ⟨true, some 7, none, .entry ⟨some 7, 100, 100 + 60⟩⟩ ∧
    cache.Get (cache.Set (7:ℤ) 100 60) 161 = ⟨false, none, none, .missing⟩ := by
  have h := cache_set_get_roundtrip_and_expiry (7:ℤ) 100 60 161 (by decide) (by decide)
  exact ⟨by decide, by decide, h.1, h.2⟩

/-- C8: every MiniMax model-remain entry yields
`utilization = (total - used)/total * 100` when `total > 0` and 0
otherwise — the remaining-based inversion is preserved: the worked
example `total=100, used=80` yields 20, not 80. -/
theorem minimax_utilization_remaining_based :
    (∀ item : minimax.ModelRemain,
      (minimax.parseModelRemain item).utilization =
        if 0 < item.currentIntervalTotalCount then
          (((item.currentIntervalTotalCount : ℚ) - (item.currentIntervalUsageCount : ℚ)) /
            (item.currentIntervalTotalCount : ℚ)) * 100
        else 0) ∧
    (minimax.parseModelRemain Examples.remain10080).utilization = 20 ∧
    (minimax.parseModelRemain Examples.remain10080).utilization ≠ 80 := by
  refine ⟨?_, ?_, ?_⟩
  · intro item
    by_cases h : (0:ℤ) < item.currentIntervalTotalCount
    · have h' : (0:ℚ) < (item.currentIntervalTotalCount : ℚ) := by exact_mod_cast h
      simp [minimax.parseModelRemain, h, h']
    · have h' : ¬ (0:ℚ) < (item.currentIntervalTotalCount : ℚ) := by exact_mod_cast h
      simp [minimax.parseModelRemain, h, h']
  · simp [minimax.parseModelRemain, Examples.remain10080]
    norm_num
  · simp [minimax.parseModelRemain, Examples.remain10080]
    norm_num

/-- C9: the three concurrent-fetch implementations — `usage.FetchAllUsage`,
the serve package's `fetchAllUsage` and the main package's
`fetchAllUsage` — compute the same function on every resolved instance
list. -/
theorem fetchAllUsage_implementations_agree (l : List ProviderInstance) :
    FetchAllUsage l = Serve.fetchAllUsage l ∧
    Serve.fetchAllUsage l = Main.fetchAllUsage l :=
  ⟨rfl, rfl⟩

/-- C10: every MiniMax window's `Remaining` is the entry's `remains_time`
duration while `Limit`/`Used` are the interval counts, so
`remaining = limit - used` fails for MiniMax (worked example: remaining
3600000 vs 100-80), while both Kimi window kinds always satisfy
`remaining = limit - used`. -/
theorem minimax_remaining_is_remains_time :
    (∀ item : minimax.ModelRemain,
        (minimax.parseModelRemain item).remaining = some ((item.remainsTime : ℚ)) ∧
        (minimax.parseModelRemain item).limit =
          some ((item.currentIntervalTotalCount : ℚ)) ∧
        (minimax.parseModelRemain item).used =
          some ((item.currentIntervalUsageCount : ℚ))) ∧
    (minimax.parseModelRemain Examples.remain10080).remaining ≠
      some ((minimax.parseModelRemain Examples.remain10080).limit.getD 0 -
        (minimax.parseModelRemain Examples.remain10080).used.getD 0) ∧
    (∀ (item : kimi.UsageItem) (w : UsageWindow), kimi.parseScopeWindow item = some w →
        ∃ l u, w.limit = some l ∧ w.used = some u ∧ w.remaining = some (l - u)) ∧
    (∀ (li : kimi.LimitItem) (w : UsageWindow), kimi.parseLimitWindow li = some w →
        ∃ l u, w.limit = some l ∧ w.used = some u ∧ w.remaining = some (l - u)) := by
  refine ⟨?_, ?_, ?_, ?_⟩
  · intro item
    exact ⟨rfl, rfl, rfl⟩
  · simp [minimax.parseModelRemain, Examples.remain10080]
    norm_num
  · intro item w hw
    unfold kimi.parseScopeWindow at hw
    cases hl : item.detail.limit with
    | none => rw [hl] at hw; exact absurd hw (by simp)
    | some l =>
        cases hu : item.detail.used with
        | none => rw [hl, hu] at hw; exact absurd hw (by simp)
        | some u =>
            rw [hl, hu] at hw
            obtain rfl : _ = w := Option.some_injective _ hw
            exact ⟨l, u, rfl, rfl, rfl⟩
  · intro li w hw
    unfold kimi.parseLimitWindow at hw
    cases hl : li.detail.limit with
    | none => rw [hl] at hw; exact absurd hw (by simp)
    | some l =>
        cases hu : li.detail.used with
        | none => rw [hl, hu] at hw; exact absurd hw (by simp)
        | some u =>
            rw [hl, hu] at hw
            obtain rfl : _ = w := Option.some_injective _ hw
            exact ⟨l, u, rfl, rfl, rfl⟩

/-- C10 witness: the worked MiniMax entry carries its `remains_time` as
`Remaining`, and the worked Kimi window satisfies
`remaining = limit - used`. -/
theorem minimax_remaining_is_remains_time_witness :
    (minimax.parseModelRemain Examples.remain10080).remaining =
      some ((Examples.remain10080.remainsTime : ℚ)) ∧
    (∃ l u, Examples.scope37.limit = some l ∧ Examples.scope37.used = some u ∧
      Examples.scope37.remaining = some (l - u)) := by
  have h := minimax_remaining_is_remains_time
  exact ⟨(h.1 Examples.remain10080).1, h.2.2.1 Examples.item37 Examples.scope37 rfl⟩

end LLMUsage
